import Mathlib

/-!
Verification development for the node connection health-check subsystem of
`professional_multitheme_launcher_v2.py` (class `NetworkConnectionMonitor`).

The Python methods are shallowly embedded as Lean functions:

* `_check_connectivity` probes a host over TCP.  The behaviour of the socket
  layer is abstracted as an environment `env : Nat → AttemptOutcome` giving,
  for each candidate port, either the return code of `connect_ex` together
  with the wall-clock duration of the attempt in milliseconds, or the fact
  that some call of the attempt raised, together with its duration.
  Python exceptions are made explicit with `Except`; the bare `except:` on
  each port and the outer `except Exception` are translated as the
  corresponding handlers.
* Durations are natural numbers of milliseconds; `time.time()` differences
  are modelled by summing the durations of the attempts performed so far.
-/

namespace Launcher

/-- Outcome of the socket work for one candidate port inside
`_check_connectivity`: either `connect_ex` returned the error code `code`
after `dur` milliseconds, or one of the calls
(`socket.socket`/`settimeout`/`connect_ex`/`close`) raised after `dur`
milliseconds (DNS resolution errors and socket creation failures land
here). -/
inductive AttemptOutcome where
  | ret (code : Int) (dur : Nat)
  | exn (dur : Nat)
deriving DecidableEq

/-- Wall-clock duration of one attempt, in milliseconds. -/
def AttemptOutcome.dur : AttemptOutcome → Nat
  | .ret _ d => d
  | .exn d => d

/-- Python exception values that the embedded code can raise.  The only
raise point inside the `try` of `_check_connectivity` is the final
`return False, response_time` when `response_time` was never assigned
(every port raised, so every `continue` skipped the assignment), which
raises `UnboundLocalError`; `UnboundLocalError` is a subclass of
`Exception`, so the outer `except Exception` catches it. -/
inductive PyExc where
  | unboundLocalError (varName : String)
deriving DecidableEq

/-- Port selection of `_check_connectivity`:
`ssh → [22]`, `telnet → [23]`, anything else `→ [22, 23]`. -/
def test_ports (node_type : String) : List Nat :=
  if node_type = "ssh" then [22]
  else if node_type = "telnet" then [23]
  else [22, 23]

/-- Total duration of a list of attempts. -/
def sumDur (env : Nat → AttemptOutcome) (ports : List Nat) : Nat :=
  (ports.map fun p => (env p).dur).sum

/-- The `try` block of `_check_connectivity` from the `for port in
test_ports` loop on: `elapsed` is the time already spent since
`start_time`, `rt` is the current value of the local `response_time`
(`none` while unassigned).  On `connect_ex` returning `0` the function
returns `True` with elapsed ms clamped to at least 1; on a nonzero code
the loop falls through and assigns `response_time`; on an exception the
bare `except: continue` skips that assignment.  After the loop,
`return False, response_time` raises `UnboundLocalError` when
`response_time` was never assigned. -/
def probeTry (env : Nat → AttemptOutcome) :
    List Nat → Nat → Option Nat → Except PyExc (Bool × Nat)
  | [], _, some rt => .ok (false, rt)
  | [], _, none => .error (.unboundLocalError "response_time")
  | p :: ps, elapsed, rt =>
    match env p with
    | .ret code d =>
      if code = 0 then .ok (true, max (elapsed + d) 1)
      else probeTry env ps (elapsed + d) (some (elapsed + d))
    | .exn d => probeTry env ps (elapsed + d) rt

/-- Embedding of `NetworkConnectionMonitor._check_connectivity`.  The
outer `except Exception` turns the only possible escaping exception
(`UnboundLocalError`, an `Exception` subclass) into
`return False, int((time.time() - start_time) * 1000)`; at that point all
attempts have run, so the elapsed time is the total duration.  The
`timeout` argument only parametrises `sock.settimeout`, which constrains
the durations delivered by `env`, not the control flow. -/
def check_connectivity (env : Nat → AttemptOutcome) (node_type : String)
    (timeout : Nat) : Except PyExc (Bool × Nat) :=
  match probeTry env (test_ports node_type) 0 none with
  | .ok r => .ok r
  | .error _ => .ok (false, sumDur env (test_ports node_type))

/-- Duration of the attempts `_check_connectivity` actually executes:
all candidate ports up to and including the first successful connect,
or all of them when none succeeds. -/
def probeDuration (env : Nat → AttemptOutcome) : List Nat → Nat
  | [] => 0
  | p :: ps =>
    match env p with
    | .ret code d => if code = 0 then d else d + probeDuration env ps
    | .exn d => d + probeDuration env ps

/-- Value of the local `response_time` after traversing a list of ports
none of which connects successfully. -/
def lastCapture (env : Nat → AttemptOutcome) :
    List Nat → Nat → Option Nat → Option Nat
  | [], _, rt => rt
  | p :: ps, elapsed, rt =>
    match env p with
    | .ret _ d => lastCapture env ps (elapsed + d) (some (elapsed + d))
    | .exn d => lastCapture env ps (elapsed + d) rt

/-- Environment for the C2 witness: port 22 raises after 3 ms (the bare
`except: continue` fires), port 23 connects successfully after 4 more
milliseconds. -/
def envC2 : Nat → AttemptOutcome :=
  fun p => if p = 22 then AttemptOutcome.exn 3 else AttemptOutcome.ret 0 4

/-- Environment for the C9 witness: both ports refuse the connection
after exactly the 2000 ms timeout. -/
def envC9 : Nat → AttemptOutcome :=
  fun _ => AttemptOutcome.ret 111 2000

/-!
Data model of the monitor: nodes as loaded from `master_config.json` and
the per-node `HealthRecord` dictionaries written into
`self.health_data`.
-/
/-- One entry of the `nodes` array of `master_config.json`, as consumed
by `_check_single_node` through `node.get(...)`: a field is `none` when
the key is missing from the JSON object. -/
structure Node where
  name : Option String
  ip : Option String
  type : Option String
deriving DecidableEq

/-- Model of Python `str.lower()` (the node lists use ASCII type tags). -/
def pyLower (s : String) : String := ⟨s.data.map Char.toLower⟩

/-- The local `node_name = node.get("name", "Unknown")`. -/
def nodeName (n : Node) : String := n.name.getD "Unknown"

/-- The local `ip = node.get("ip", "")`. -/
def nodeIp (n : Node) : String := n.ip.getD ""

/-- The local `node_type = node.get("type", "unknown").lower()`. -/
def nodeType (n : Node) : String := pyLower (n.type.getD "unknown")

/-- The dictionary value `_check_single_node` stores into
`self.health_data[node_name]`.  `last_check` is the `datetime.now()`
timestamp, modelled as a natural number supplied by the caller. -/
structure HealthRecord where
  ip : String
  type : String
  status : String
  response_time : Nat
  last_check : Nat
  recommendation : String
deriving DecidableEq

/-- Embedding of `NetworkConnectionMonitor._get_recommendation`. -/
def get_recommendation (is_healthy : Bool) (response_time : Nat)
    (node_type : String) : String :=
  if !is_healthy then
    if node_type = "ssh" then "SSH connection failed - verify SSH service running"
    else if node_type = "telnet" then "Telnet connection failed - verify telnet service running"
    else "Connection failed - verify node is online"
  else if response_time > 3000 then "Very slow response (>3s) - check network performance"
  else if response_time > 1000 then "Slow response (>1s) - monitor network performance"
  else "Good connection - healthy network connectivity"

/-- The shared `self.health_data` dictionary, modelled as an ordered
association list the way a Python `dict` keeps insertion order. -/
abbrev Store := List (String × HealthRecord)

/-- Python `d[k] = v`: overwrite in place when the key exists (keeping
its position, as a `dict` does), append otherwise. -/
def dictSet : Store → String → HealthRecord → Store
  | [], k, v => [(k, v)]
  | (k', v') :: rest, k, v =>
    if k' = k then (k, v) :: rest else (k', v') :: dictSet rest k v

/-- Python `d.get(k)` / `d[k]` lookup. -/
def dictGet : Store → String → Option HealthRecord
  | [], _ => none
  | (k', v') :: rest, k => if k' = k then some v' else dictGet rest k

/-- The keys of the dictionary, in insertion order. -/
def dictKeys (st : Store) : List String := st.map Prod.fst

/-- String of the exception, as `str(e)` renders an `UnboundLocalError`. -/
def PyExc.str : PyExc → String
  | .unboundLocalError v =>
    "local variable " ++ v ++ " referenced before assignment"

/-- Per-host environment: the socket behaviour for each `(host, port)`
pair during one cycle. -/
abbrev NetEnv := String → Nat → AttemptOutcome

/-- Embedding of `NetworkConnectionMonitor._check_single_node`.  The
`try` spans the probe call and the store write; the probe itself never
raises (`check_connectivity_ok`), so the `except Exception` branch
writing a `status="Error"` record is unreachable, but it is translated
faithfully here. -/
def check_single_node (env : NetEnv) (now timeout : Nat) (node : Node)
    (st : Store) : Store :=
  let node_name := nodeName node
  let ip := nodeIp node
  let node_type := nodeType node
  match check_connectivity (env ip) node_type timeout with
  | .ok (is_healthy, response_time) =>
    dictSet st node_name
      { ip := ip, type := node_type
        status := if is_healthy then "Healthy" else "Unhealthy"
        response_time := response_time, last_check := now
        recommendation := get_recommendation is_healthy response_time node_type }
  | .error e =>
    dictSet st node_name
      { ip := ip, type := node_type, status := "Error"
        response_time := 0, last_check := now
        recommendation := "Connection failed: " ++ e.str.take 50 }

/-- The record `_check_single_node` computes for a node (the probe never
raises, so only the `.ok` shape occurs; see
`check_single_node_eq_dictSet`). -/
def nodeRecord (env : NetEnv) (now timeout : Nat) (node : Node) : HealthRecord :=
  match check_connectivity (env (nodeIp node)) (nodeType node) timeout with
  | .ok (is_healthy, response_time) =>
    { ip := nodeIp node, type := nodeType node
      status := if is_healthy then "Healthy" else "Unhealthy"
      response_time := response_time, last_check := now
      recommendation := get_recommendation is_healthy response_time (nodeType node) }
  | .error e =>
    { ip := nodeIp node, type := nodeType node, status := "Error"
      response_time := 0, last_check := now
      recommendation := "Connection failed: " ++ e.str.take 50 }

/-!
Cycle machinery of `_check_connections_safely`: batch slicing, the event
trace of one cycle, and the sequential linearisation of the batch loop.
-/
/-- Python `range(start, stop, step)` for `step ≥ 1` (the code always
calls it with `max_concurrent ≥ 1`; `range` with step 0 raises in
Python and is outside every claim). -/
def pyRange (start stop step : Nat) : List Nat :=
  List.range' start ((stop - start + step - 1) / step) step

/-- The batches of one cycle, literally as the source computes them:
`for i in range(0, len(nodes), max_concurrent): batch = nodes[i:i + max_concurrent]`. -/
def sliceBatches {α : Type} (ns : List α) (mc : Nat) : List (List α) :=
  (pyRange 0 ns.length mc).map (fun i => (ns.drop i).take mc)

/-- Consecutive chunks of size `mc` (the last may be smaller), following
the wording of the specification; `claim_C3` proves it equal to
`sliceBatches` for `mc ≥ 1`. -/
def specChunks {α : Type} (mc : Nat) : List α → List (List α)
  | [] => []
  | x :: xs => (x :: xs.take (mc - 1)) :: specChunks mc (xs.drop (mc - 1))
termination_by ns => ns.length
decreasing_by simp [List.length_drop]; omega

/-- Observable scheduling actions of the batch loop in
`_check_connections_safely`: starting a worker thread for a node,
joining it with a timeout, and the `time.sleep(0.1)` pause after each
batch. -/
inductive CycleEvent where
  | spawn (node : Node)
  | join (node : Node) (timeout : Nat)
  | pause
deriving DecidableEq

/-- Events of one batch: one thread started per node, then
`thread.join(timeout=timeout + 1)` per thread, then `time.sleep(0.1)`. -/
def batchTrace (timeout : Nat) (batch : List Node) : List CycleEvent :=
  batch.map CycleEvent.spawn
    ++ batch.map (fun n => CycleEvent.join n (timeout + 1))
    ++ [CycleEvent.pause]

/-- Event trace of the whole batch loop, following the index-based
slicing of the source. -/
def cycleTrace (ns : List Node) (mc timeout : Nat) : List CycleEvent :=
  ((pyRange 0 ns.length mc).map
    (fun i => batchTrace timeout ((ns.drop i).take mc))).flatten

/-- Sequential linearisation of one batch of worker threads, each worker
running `_check_single_node`; each write targets the node name of its
own worker, so this fold is the canonical interleaving of the batch. -/
def runBatch (env : NetEnv) (now timeout : Nat) (batch : List Node)
    (st : Store) : Store :=
  batch.foldl (fun acc n => check_single_node env now timeout n acc) st

/-- The batch loop with an optional injected cycle-level exception:
`failBatch = some k` means an `Exception` (for example a failing
`threading.Thread` creation) is raised just before batch `k` is
processed, so the loop stops there with the store as written so far. -/
def runBatches (env : NetEnv) (now timeout : Nat) :
    Option Nat → List (List Node) → Store → Store × Bool
  | _, [], st => (st, false)
  | failBatch, b :: bs, st =>
    if failBatch = some 0 then (st, true)
    else runBatches env now timeout (failBatch.map fun j => j - 1) bs
      (runBatch env now timeout b st)

/-- How the cycle obtains its node list: the config file is absent
(`os.path.exists` false), `json.load` raises, or the parsed config
yields `config.get("nodes", [])` (an absent `nodes` key gives `[]`). -/
inductive ConfigSrc where
  | missing
  | parseError
  | ok (nodes : List Node)

/-- Everything one run of `_check_connections_safely` reads from its
surroundings: the config load result, the two `app_settings` values
(`max_concurrent_checks` and `node_timeout`), the socket environment,
the `datetime.now()` timestamp, and the optional injected cycle-level
exception point. -/
structure CycleInput where
  cfg : ConfigSrc
  mc : Nat
  timeout : Nat
  env : NetEnv
  now : Nat
  failBatch : Option Nat

/-- The `try` block of `_check_connections_safely` (after the guard and
the flag set): returns the store as written when the block finishes or
raises, and whether it raised.  A raised `Exception` is what the
`except Exception` clause then logs. -/
def cycleBody (inp : CycleInput) (st : Store) : Store × Bool :=
  match inp.cfg with
  | .missing => (st, false)
  | .parseError => (st, true)
  | .ok nodes =>
    if nodes.isEmpty then (st, false)
    else runBatches inp.env inp.now inp.timeout inp.failBatch
      (sliceBatches nodes inp.mc) st

/-- Mutable state of a `NetworkConnectionMonitor` object: the
`check_in_progress` flag and the `health_data` dictionary. -/
structure MonState where
  check_in_progress : Bool
  health_data : Store
deriving DecidableEq

/-- State after `__init__`: `health_data = {}`,
`check_in_progress = False`. -/
def monitorInit : MonState :=
  { check_in_progress := false, health_data := [] }

/-- Embedding of `_check_connections_safely` as a state transformer: the
guard returns immediately when a cycle is in progress; otherwise the
flag is set, the `try` block runs (exceptions caught and logged by
`except Exception`), and the `finally` clause resets the flag, so the
final flag is always `False`. -/
def check_connections_safely (inp : CycleInput) (s : MonState) : MonState :=
  if s.check_in_progress then s
  else { check_in_progress := false
         health_data := (cycleBody inp s.health_data).1 }

/-- Embedding of `get_health_data`, `return self.health_data.copy()`:
the returned snapshot is the value of the store at read time.  In this
pure model the copy semantics is value semantics: later `dictSet`
operations build new stores and cannot alter a snapshot already
returned, and reading performs no mutation. -/
def get_health_data (s : MonState) : Store := s.health_data

/-- One iteration of `_monitor_loop`: tick the scheduler, running a
cycle only when none is in progress.  The `except Exception` around the
body catches any cycle error (the cycle itself already catches its own,
so this level never sees one), and the loop then sleeps. -/
def monitor_iter (inp : CycleInput) (s : MonState) : MonState :=
  if s.check_in_progress then s else check_connections_safely inp s

/-!
Interleaved scheduler model for the reentrancy guard.  The guard of the
code is a non-atomic check-then-set: `force_check` (line 1768) only
reads the flag and spawns a thread; the spawned thread — and the
`_monitor_loop` thread calling `_check_connections_safely` directly
after its own flag test at line 1639 — tests the flag at line 1647 and
sets it at line 1650, two separate statements, so statements of other
threads can interleave between the test and the set.  Each statement is
one event here.  `pending` counts checker threads spawned but not yet at
the guard test, `passed` counts threads that saw the flag clear at the
test but have not yet executed the set, and `activeCycles` counts cycle
executions currently running (a specification variable, not a program
variable: a cycle is running from its flag set until its `finally`
clause at line 1689). -/

/-- Interleaving-level state of the scheduler and its checker threads. -/
structure RaceState where
  check_in_progress : Bool
  pending : Nat
  passed : Nat
  activeCycles : Nat
deriving DecidableEq

/-- State at `__init__`: flag clear, no checker threads, no cycle. -/
def raceInit : RaceState :=
  { check_in_progress := false, pending := 0, passed := 0, activeCycles := 0 }

/-- Embedding of `force_check()`: it reads the flag (line 1768); when
clear it spawns a daemon thread that will run
`_check_connections_safely` and returns `True`, otherwise it returns
`False`.  The spawn itself does not touch the flag: the guard of the
spawned thread runs later, as events of its own. -/
def force_check (s : RaceState) : Bool × RaceState :=
  if s.check_in_progress then (false, s)
  else (true, { s with pending := s.pending + 1 })

/-- Atomic statements of the threads involved in the guard: a
`force_check()` call; a `_monitor_loop` tick reaching its flag test at
line 1639 (on a clear flag the loop thread proceeds into
`_check_connections_safely`, becoming one more pending guard
execution); a pending checker executing the guard test of line 1647
(`if self.check_in_progress: return`); a passed checker executing
`self.check_in_progress = True` at line 1650, which is when its cycle
begins; and the `finally` clause of a running cycle clearing the flag. -/
inductive RaceEvent where
  | forceCheck
  | tick
  | guardTest
  | guardSet
  | finishCycle
deriving DecidableEq

/-- One interleaving step per event. -/
def raceStep : RaceEvent → RaceState → RaceState
  | .forceCheck, s => (force_check s).2
  | .tick, s =>
    if s.check_in_progress then s else { s with pending := s.pending + 1 }
  | .guardTest, s =>
    if s.pending = 0 then s
    else if s.check_in_progress then { s with pending := s.pending - 1 }
    else { s with pending := s.pending - 1, passed := s.passed + 1 }
  | .guardSet, s =>
    if s.passed = 0 then s
    else { s with check_in_progress := true, passed := s.passed - 1,
                  activeCycles := s.activeCycles + 1 }
  | .finishCycle, s =>
    if s.activeCycles = 0 then s
    else { s with check_in_progress := false,
                  activeCycles := s.activeCycles - 1 }

/-- The state after a sequence of interleaved events from `__init__`. -/
def raceRun (evs : List RaceEvent) : RaceState :=
  evs.foldl (fun s e => raceStep e s) raceInit

/-- A guard execution whose test and set run back to back, with no other
event interleaved inside the check-then-set window. -/
def guardAtomic (s : RaceState) : RaceState :=
  if s.pending = 0 then s
  else if s.check_in_progress then { s with pending := s.pending - 1 }
  else { s with pending := s.pending - 1, check_in_progress := true,
                activeCycles := s.activeCycles + 1 }

/-- Events of the executions in which no thread is preempted inside the
check-then-set window of the guard. -/
inductive AtomicEvent where
  | forceCheck
  | tick
  | guard
  | finishCycle
deriving DecidableEq

/-- One step per event of an interleaving that keeps each guard
execution contiguous. -/
def atomicStep : AtomicEvent → RaceState → RaceState
  | .forceCheck, s => (force_check s).2
  | .tick, s => raceStep RaceEvent.tick s
  | .guard, s => guardAtomic s
  | .finishCycle, s => raceStep RaceEvent.finishCycle s

/-- The state after a sequence of guard-contiguous events from
`__init__`. -/
def atomicRun (evs : List AtomicEvent) : RaceState :=
  evs.foldl (fun s e => atomicStep e s) raceInit

/-!
Concrete inputs used by the witnesses and counterexamples.
-/
/-- Environment where DNS resolution of the host fails: `connect_ex`
raises `socket.gaierror` on every candidate port, each attempt taking
5 ms. -/
def envC4 : NetEnv := fun _ _ => AttemptOutcome.exn 5

/-- A node whose host name does not resolve. -/
def nodeC4 : Node := ⟨some "R1", some "badhost.invalid", some "ssh"⟩

/-- Environment where the connection is refused instantly: `connect_ex`
returns `ECONNREFUSED` (111) within the same millisecond, so
`int((time.time() - start_time) * 1000)` is 0. -/
def envC5 : NetEnv := fun _ _ => AttemptOutcome.ret 111 0

/-- The node of Scenario A: local ssh node whose port is unreachable. -/
def nodeC5 : Node := ⟨some "R1", some "127.0.0.1", some "ssh"⟩

/-- Environment where every port connects successfully after 2 ms. -/
def envC10 : NetEnv := fun _ _ => AttemptOutcome.ret 0 2

/-- A config node object with no `name`, `ip` or `type` key. -/
def nodeC10 : Node := ⟨none, none, none⟩

/-- Two health records for the same node name, for the overwrite
witness. -/
def recW1 : HealthRecord :=
  { ip := "10.0.0.1", type := "ssh", status := "Healthy", response_time := 5
    last_check := 0
    recommendation := "Good connection - healthy network connectivity" }

/-- A second, later record for the same node name. -/
def recW2 : HealthRecord :=
  { ip := "10.0.0.1", type := "ssh", status := "Unhealthy", response_time := 9
    last_check := 1
    recommendation := "SSH connection failed - verify SSH service running" }

/-- One concrete node, repeated to form the 7-node list of P2. -/
def nodeC3 : Node := ⟨some "N", some "10.0.0.9", some "ssh"⟩

/-- A 7-node list for the batch-bound witness. -/
def nsC3 : List Node :=
  [nodeC3, nodeC3, nodeC3, nodeC3, nodeC3, nodeC3, nodeC3]

/-- A cycle input whose config file is missing. -/
def inpMissing : CycleInput :=
  { cfg := ConfigSrc.missing, mc := 3, timeout := 2
    env := fun _ _ => AttemptOutcome.exn 0, now := 0, failBatch := none }

/-- A cycle input whose config file holds an empty node list. -/
def inpEmpty : CycleInput :=
  { cfg := ConfigSrc.ok [], mc := 3, timeout := 2
    env := fun _ _ => AttemptOutcome.exn 0, now := 0, failBatch := none }

/-- A cycle input whose config file is malformed JSON, so `json.load`
raises. -/
def inpParseError : CycleInput :=
  { cfg := ConfigSrc.parseError, mc := 3, timeout := 2
    env := fun _ _ => AttemptOutcome.exn 0, now := 0, failBatch := none }

/-!
Proof development: helper lemmas followed by the claim theorems,
their witnesses and the counterexamples.
-/

@[simp] lemma AttemptOutcome.dur_ret (c : Int) (d : Nat) :
    (AttemptOutcome.ret c d).dur = d := rfl

@[simp] lemma AttemptOutcome.dur_exn (d : Nat) :
    (AttemptOutcome.exn d).dur = d := rfl

lemma sumDur_nil (env : Nat → AttemptOutcome) : sumDur env [] = 0 := rfl

lemma sumDur_cons (env : Nat → AttemptOutcome) (p : Nat) (ps : List Nat) :
    sumDur env (p :: ps) = (env p).dur + sumDur env ps := by
  simp [sumDur]

lemma test_ports_ne_nil (nt : String) : test_ports nt ≠ [] := by
  unfold test_ports
  split
  · simp
  · split <;> simp

/-- Traversing a prefix on which no port connects successfully just
accumulates elapsed time and updates `response_time`. -/
lemma probeTry_append (env : Nat → AttemptOutcome) :
    ∀ (l rest : List Nat) (elapsed : Nat) (rt : Option Nat),
      (∀ q ∈ l, ∀ e, env q ≠ AttemptOutcome.ret 0 e) →
      probeTry env (l ++ rest) elapsed rt
        = probeTry env rest (elapsed + sumDur env l) (lastCapture env l elapsed rt) := by
  intro l
  induction l with
  | nil => intro rest elapsed rt _; simp [sumDur, lastCapture]
  | cons p ps ih =>
    intro rest elapsed rt h
    have hps : ∀ q ∈ ps, ∀ e, env q ≠ AttemptOutcome.ret 0 e :=
      fun q hq e => h q (by simp [hq]) e
    cases hp : env p with
    | ret code d =>
      have hcode : ¬ code = 0 := by
        intro h0
        exact h p (by simp) d (by rw [← h0]; exact hp)
      have hstep : probeTry env ((p :: ps) ++ rest) elapsed rt
          = probeTry env (ps ++ rest) (elapsed + d) (some (elapsed + d)) := by
        simp [probeTry, hp, hcode]
      have hsum : sumDur env (p :: ps) = d + sumDur env ps := by
        simp [sumDur_cons, hp]
      have hcap : lastCapture env (p :: ps) elapsed rt
          = lastCapture env ps (elapsed + d) (some (elapsed + d)) := by
        simp [lastCapture, hp]
      rw [hstep, ih rest (elapsed + d) (some (elapsed + d)) hps, hsum, hcap,
        Nat.add_assoc]
    | exn d =>
      have hstep : probeTry env ((p :: ps) ++ rest) elapsed rt
          = probeTry env (ps ++ rest) (elapsed + d) rt := by
        simp [probeTry, hp]
      have hsum : sumDur env (p :: ps) = d + sumDur env ps := by
        simp [sumDur_cons, hp]
      have hcap : lastCapture env (p :: ps) elapsed rt
          = lastCapture env ps (elapsed + d) rt := by
        simp [lastCapture, hp]
      rw [hstep, ih rest (elapsed + d) rt hps, hsum, hcap, Nat.add_assoc]

/-- Traversing the whole port list with no success lands in the
post-loop state. -/
lemma probeTry_no_success (env : Nat → AttemptOutcome) (l : List Nat)
    (elapsed : Nat) (rt : Option Nat)
    (h : ∀ q ∈ l, ∀ e, env q ≠ AttemptOutcome.ret 0 e) :
    probeTry env l elapsed rt
      = probeTry env [] (elapsed + sumDur env l) (lastCapture env l elapsed rt) := by
  conv_lhs => rw [← List.append_nil l]
  exact probeTry_append env l [] elapsed rt h

/-- When every attempt returns an error code (no exception), the last
assignment to `response_time` is the total elapsed time. -/
lemma lastCapture_allRet (env : Nat → AttemptOutcome) :
    ∀ (l : List Nat) (elapsed : Nat) (rt : Option Nat),
      l ≠ [] → (∀ q ∈ l, ∃ c e, env q = AttemptOutcome.ret c e) →
      lastCapture env l elapsed rt = some (elapsed + sumDur env l) := by
  intro l
  induction l with
  | nil => intro _ _ h; exact absurd rfl h
  | cons p ps ih =>
    intro elapsed rt _ h
    obtain ⟨c, e, hp⟩ := h p (by simp)
    by_cases hps : ps = []
    · subst hps
      simp [lastCapture, hp, sumDur_cons, sumDur_nil]
    · have hcap : lastCapture env (p :: ps) elapsed rt
          = lastCapture env ps (elapsed + e) (some (elapsed + e)) := by
        simp [lastCapture, hp]
      have hsum : sumDur env (p :: ps) = e + sumDur env ps := by
        simp [sumDur_cons, hp]
      rw [hcap, ih (elapsed + e) (some (elapsed + e)) hps
        (fun q hq => h q (by simp [hq])), hsum, Nat.add_assoc]

/-- When every attempt raises, `response_time` keeps its incoming value. -/
lemma lastCapture_allExn (env : Nat → AttemptOutcome) :
    ∀ (l : List Nat) (elapsed : Nat) (rt : Option Nat),
      (∀ q ∈ l, ∃ e, env q = AttemptOutcome.exn e) →
      lastCapture env l elapsed rt = rt := by
  intro l
  induction l with
  | nil => intro _ _ _; rfl
  | cons p ps ih =>
    intro elapsed rt h
    obtain ⟨e, hp⟩ := h p (by simp)
    have hcap : lastCapture env (p :: ps) elapsed rt
        = lastCapture env ps (elapsed + e) rt := by
      simp [lastCapture, hp]
    rw [hcap]
    exact ih (elapsed + e) rt (fun q hq => h q (by simp [hq]))

/-- Every value that `response_time` can hold is an elapsed time at some
point of the traversal, hence bounded by the total elapsed time. -/
lemma lastCapture_bound (env : Nat → AttemptOutcome) :
    ∀ (l : List Nat) (elapsed : Nat) (rt : Option Nat),
      (∀ r0, rt = some r0 → r0 ≤ elapsed) →
      ∀ r, lastCapture env l elapsed rt = some r → r ≤ elapsed + sumDur env l := by
  intro l
  induction l with
  | nil =>
    intro elapsed rt h r hr
    simp only [lastCapture] at hr
    have := h r hr
    omega
  | cons p ps ih =>
    intro elapsed rt h r hr
    cases hp : env p with
    | ret c d =>
      rw [show lastCapture env (p :: ps) elapsed rt
          = lastCapture env ps (elapsed + d) (some (elapsed + d)) by
        simp [lastCapture, hp]] at hr
      have := ih (elapsed + d) (some (elapsed + d))
        (fun r0 h0 => by cases h0; omega) r hr
      have hsum : sumDur env (p :: ps) = d + sumDur env ps := by
        simp [sumDur_cons, hp]
      omega
    | exn d =>
      rw [show lastCapture env (p :: ps) elapsed rt
          = lastCapture env ps (elapsed + d) rt by
        simp [lastCapture, hp]] at hr
      have := ih (elapsed + d) rt (fun r0 h0 => by have := h r0 h0; omega) r hr
      have hsum : sumDur env (p :: ps) = d + sumDur env ps := by
        simp [sumDur_cons, hp]
      omega

/-- With no successful port, the executed duration is the full duration. -/
lemma probeDuration_eq_sumDur (env : Nat → AttemptOutcome) :
    ∀ (l : List Nat), (∀ q ∈ l, ∀ e, env q ≠ AttemptOutcome.ret 0 e) →
      probeDuration env l = sumDur env l := by
  intro l
  induction l with
  | nil => intro _; rfl
  | cons p ps ih =>
    intro h
    have hps := ih (fun q hq e => h q (by simp [hq]) e)
    cases hp : env p with
    | ret c d =>
      have hc : ¬ c = 0 := by
        intro h0; exact h p (by simp) d (by rw [← h0]; exact hp)
      simp [probeDuration, hp, hc, sumDur_cons, hps]
    | exn d =>
      simp [probeDuration, hp, sumDur_cons, hps]

lemma probeDuration_le_sumDur (env : Nat → AttemptOutcome) :
    ∀ (l : List Nat), probeDuration env l ≤ sumDur env l := by
  intro l
  induction l with
  | nil => exact Nat.le_refl 0
  | cons p ps ih =>
    cases hp : env p with
    | ret c d =>
      by_cases hc : c = 0
      · simp [probeDuration, hp, hc, sumDur_cons]
      · have h1 : probeDuration env (p :: ps) = d + probeDuration env ps := by
          simp [probeDuration, hp, hc]
        have h2 : sumDur env (p :: ps) = d + sumDur env ps := by
          simp [sumDur_cons, hp]
        omega
    | exn d =>
      have h1 : probeDuration env (p :: ps) = d + probeDuration env ps := by
        simp [probeDuration, hp]
      have h2 : sumDur env (p :: ps) = d + sumDur env ps := by
        simp [sumDur_cons, hp]
      omega

lemma sumDur_le_length_mul (env : Nat → AttemptOutcome) (B : Nat) :
    ∀ (l : List Nat), (∀ p ∈ l, (env p).dur ≤ B) →
      sumDur env l ≤ l.length * B := by
  intro l
  induction l with
  | nil => intro _; simp [sumDur]
  | cons p ps ih =>
    intro h
    have h1 := h p (by simp)
    have h2 := ih (fun q hq => h q (by simp [hq]))
    have h3 : sumDur env (p :: ps) = (env p).dur + sumDur env ps := sumDur_cons env p ps
    have h4 : (p :: ps).length * B = B + ps.length * B := by
      simp [List.length_cons]; ring
    omega

lemma test_ports_other (nt : String) (h1 : nt ≠ "ssh") (h2 : nt ≠ "telnet") :
    test_ports nt = [22, 23] := by
  simp [test_ports, h1, h2]

/-- The first port whose `connect_ex` returns 0 short-circuits the loop:
whatever the earlier ports did (nonzero codes or exceptions) and
whatever comes after, the probe returns success with the elapsed time so
far, clamped to at least 1 ms. -/
lemma check_connectivity_first_success (env : Nat → AttemptOutcome)
    (nt : String) (timeout : Nat) (l : List Nat) (p : Nat) (r : List Nat)
    (d : Nat) (hports : test_ports nt = l ++ p :: r)
    (hl : ∀ q ∈ l, ∀ e, env q ≠ AttemptOutcome.ret 0 e)
    (hp : env p = AttemptOutcome.ret 0 d) :
    check_connectivity env nt timeout
      = Except.ok (true, max (sumDur env l + d) 1) := by
  unfold check_connectivity
  rw [hports, probeTry_append env l (p :: r) 0 none hl]
  simp [probeTry, hp]

/-- When `connect_ex` returns a nonzero code on every candidate port,
the probe returns failure with the total elapsed time. -/
lemma check_connectivity_all_refused (env : Nat → AttemptOutcome)
    (nt : String) (timeout : Nat)
    (h : ∀ q ∈ test_ports nt, ∃ c e, env q = AttemptOutcome.ret c e ∧ c ≠ 0) :
    check_connectivity env nt timeout
      = Except.ok (false, sumDur env (test_ports nt)) := by
  have hne := test_ports_ne_nil nt
  have hnosucc : ∀ q ∈ test_ports nt, ∀ e, env q ≠ AttemptOutcome.ret 0 e := by
    intro q hq e hEq
    obtain ⟨c, e', h1, h2⟩ := h q hq
    rw [hEq] at h1
    cases h1
    exact h2 rfl
  unfold check_connectivity
  rw [probeTry_no_success env (test_ports nt) 0 none hnosucc,
    lastCapture_allRet env (test_ports nt) 0 none hne
      (fun q hq => by obtain ⟨c, e, h1, _⟩ := h q hq; exact ⟨c, e, h1⟩)]
  simp [probeTry]

/-- When every candidate port raises, `response_time` is never assigned,
the final `return` raises `UnboundLocalError`, and the outer
`except Exception` returns failure with the total elapsed time. -/
lemma check_connectivity_all_exn (env : Nat → AttemptOutcome)
    (nt : String) (timeout : Nat)
    (h : ∀ q ∈ test_ports nt, ∃ e, env q = AttemptOutcome.exn e) :
    check_connectivity env nt timeout
      = Except.ok (false, sumDur env (test_ports nt)) := by
  have hnosucc : ∀ q ∈ test_ports nt, ∀ e, env q ≠ AttemptOutcome.ret 0 e := by
    intro q hq e hEq
    obtain ⟨e', h1⟩ := h q hq
    rw [hEq] at h1
    cases h1
  unfold check_connectivity
  rw [probeTry_no_success env (test_ports nt) 0 none hnosucc,
    lastCapture_allExn env (test_ports nt) 0 none h]
  simp [probeTry]

/-- When no candidate port connects, the probe returns failure with an
elapsed time bounded by the total duration of all attempts. -/
lemma check_connectivity_no_success (env : Nat → AttemptOutcome)
    (nt : String) (timeout : Nat)
    (h : ∀ q ∈ test_ports nt, ∀ e, env q ≠ AttemptOutcome.ret 0 e) :
    ∃ rt, check_connectivity env nt timeout = Except.ok (false, rt) ∧
      rt ≤ sumDur env (test_ports nt) := by
  unfold check_connectivity
  rw [probeTry_no_success env (test_ports nt) 0 none h]
  cases hcap : lastCapture env (test_ports nt) 0 none with
  | none => exact ⟨sumDur env (test_ports nt), by simp [probeTry], Nat.le_refl _⟩
  | some rt =>
    refine ⟨rt, by simp [probeTry], ?_⟩
    have := lastCapture_bound env (test_ports nt) 0 none
      (fun r0 h0 => by cases h0) rt hcap
    omega

/-- The probe never raises: the outer `except Exception` catches
everything the `try` block can raise. -/
lemma check_connectivity_ok (env : Nat → AttemptOutcome) (nt : String)
    (timeout : Nat) :
    ∃ res, check_connectivity env nt timeout = Except.ok res := by
  unfold check_connectivity
  cases probeTry env (test_ports nt) 0 none with
  | ok r => exact ⟨r, rfl⟩
  | error e => exact ⟨(false, sumDur env (test_ports nt)), rfl⟩

/-- Claim C2: for every host, node type and timeout, the connectivity
probe selects candidate ports by node type (`ssh → [22]`,
`telnet → [23]`, anything else `→ [22, 23]`), iterates them in order, the
first successful TCP connect short-circuits the loop and returns success
with elapsed milliseconds of at least 1; if all candidate ports fail it
returns failure with elapsed milliseconds since the probe began; the
probe never raises, and any lower-level error on one port is treated as
a failed attempt for that port with probing continuing to the next
candidate port (the success conjunct allows any mix of error codes and
exceptions on the earlier ports). -/
theorem claim_C2 (env : Nat → AttemptOutcome) (nt : String) (timeout : Nat) :
    (test_ports "ssh" = [22] ∧ test_ports "telnet" = [23] ∧
      (nt ≠ "ssh" → nt ≠ "telnet" → test_ports nt = [22, 23])) ∧
    (∀ l p r d, test_ports nt = l ++ p :: r →
      (∀ q ∈ l, ∀ e, env q ≠ AttemptOutcome.ret 0 e) →
      env p = AttemptOutcome.ret 0 d →
      check_connectivity env nt timeout
        = Except.ok (true, max (sumDur env l + d) 1) ∧
      1 ≤ max (sumDur env l + d) 1) ∧
    ((∀ q ∈ test_ports nt, ∃ c e, env q = AttemptOutcome.ret c e ∧ c ≠ 0) →
      check_connectivity env nt timeout
        = Except.ok (false, sumDur env (test_ports nt))) ∧
    ((∀ q ∈ test_ports nt, ∃ e, env q = AttemptOutcome.exn e) →
      check_connectivity env nt timeout
        = Except.ok (false, sumDur env (test_ports nt))) ∧
    ((∀ q ∈ test_ports nt, ∀ e, env q ≠ AttemptOutcome.ret 0 e) →
      ∃ rt, check_connectivity env nt timeout = Except.ok (false, rt) ∧
        rt ≤ sumDur env (test_ports nt)) ∧
    (∃ res, check_connectivity env nt timeout = Except.ok res) := by
  exact ⟨⟨rfl, rfl, test_ports_other nt⟩,
    fun l p r d hports hl hp =>
      ⟨check_connectivity_first_success env nt timeout l p r d hports hl hp,
        Nat.le_max_right _ 1⟩,
    check_connectivity_all_refused env nt timeout,
    check_connectivity_all_exn env nt timeout,
    check_connectivity_no_success env nt timeout,
    check_connectivity_ok env nt timeout⟩

theorem claim_C2_witness :
    check_connectivity envC2 "unknown" 2 = Except.ok (true, 7) := by
  have h := (claim_C2 envC2 "unknown" 2).2.1 [22] 23 [] 4 rfl
    (by intro q hq e; simp only [List.mem_singleton] at hq; subst hq
        simp [envC2])
    (by simp [envC2])
  exact h.1

/-- Claim C9: for every probe, the wall-clock time for the probe to
return is at most `timeout` times the number of candidate ports plus a
small constant overhead.  The hypothesis renders `sock.settimeout`: each
attempt finishes within the timeout plus a per-attempt overhead `c`
(socket creation, close and loop bookkeeping).  For node type
`"unknown"` (neither ssh nor telnet) there are 2 candidate ports, so the
probe returns within `2 * (T + c)` — with `T = 2000` ms about 4–5
seconds — and, being a total function over every environment, it never
hangs.  The last conjunct ties the executed duration to the result of
`check_connectivity`. -/
theorem claim_C9 (env : Nat → AttemptOutcome) (nt : String) (timeout T c : Nat)
    (h : ∀ p ∈ test_ports nt, (env p).dur ≤ T + c) :
    probeDuration env (test_ports nt) ≤ (test_ports nt).length * (T + c) ∧
    (nt ≠ "ssh" → nt ≠ "telnet" →
      probeDuration env (test_ports nt) ≤ 2 * (T + c)) ∧
    ((∀ q ∈ test_ports nt, ∃ ce e, env q = AttemptOutcome.ret ce e ∧ ce ≠ 0) →
      check_connectivity env nt timeout
        = Except.ok (false, probeDuration env (test_ports nt))) := by
  have hbound : probeDuration env (test_ports nt) ≤ (test_ports nt).length * (T + c) :=
    Nat.le_trans (probeDuration_le_sumDur env (test_ports nt))
      (sumDur_le_length_mul env (T + c) (test_ports nt) h)
  refine ⟨hbound, ?_, ?_⟩
  · intro h1 h2
    have hp : test_ports nt = [22, 23] := test_ports_other nt h1 h2
    rw [hp] at hbound ⊢
    simpa using hbound
  · intro hfail
    have hnosucc : ∀ q ∈ test_ports nt, ∀ e, env q ≠ AttemptOutcome.ret 0 e := by
      intro q hq e hEq
      obtain ⟨ce, e', h1, h2⟩ := hfail q hq
      rw [hEq] at h1
      cases h1
      exact h2 rfl
    rw [probeDuration_eq_sumDur env (test_ports nt) hnosucc]
    exact check_connectivity_all_refused env nt timeout hfail

theorem claim_C9_witness :
    probeDuration envC9 (test_ports "unknown") ≤ 2 * (2000 + 500) := by
  exact ((claim_C9 envC9 "unknown" 2 2000 500
    (by intro p hp; simp [envC9])).2.1) (by decide) (by decide)

lemma check_single_node_eq_dictSet (env : NetEnv) (now timeout : Nat)
    (node : Node) (st : Store) :
    check_single_node env now timeout node st
      = dictSet st (nodeName node) (nodeRecord env now timeout node) := by
  cases h : check_connectivity (env (nodeIp node)) (nodeType node) timeout with
  | ok r => obtain ⟨a, b⟩ := r; simp [check_single_node, nodeRecord, h]
  | error e => simp [check_single_node, nodeRecord, h]

lemma dictGet_dictSet_self (st : Store) (k : String) (v : HealthRecord) :
    dictGet (dictSet st k v) k = some v := by
  induction st with
  | nil => simp [dictSet, dictGet]
  | cons hd tl ih =>
    obtain ⟨k', v'⟩ := hd
    by_cases h : k' = k
    · simp [dictSet, dictGet, h]
    · simp [dictSet, dictGet, h, ih]

lemma dictGet_dictSet_other (st : Store) (k k' : String) (v : HealthRecord)
    (h : k' ≠ k) : dictGet (dictSet st k v) k' = dictGet st k' := by
  have hne : ¬ k = k' := fun hh => h hh.symm
  induction st with
  | nil => simp [dictSet, dictGet, hne]
  | cons hd tl ih =>
    obtain ⟨k0, v0⟩ := hd
    by_cases h0 : k0 = k
    · subst h0
      simp [dictSet, dictGet, hne]
    · simp only [dictSet, if_neg h0, dictGet]
      by_cases h1 : k0 = k'
      · simp [h1]
      · simp [h1, ih]

lemma dictKeys_dictSet_mem (st : Store) (k : String) (v : HealthRecord)
    (h : k ∈ dictKeys st) : dictKeys (dictSet st k v) = dictKeys st := by
  induction st with
  | nil => simp [dictKeys] at h
  | cons hd tl ih =>
    obtain ⟨k0, v0⟩ := hd
    by_cases h0 : k0 = k
    · simp [dictSet, dictKeys, h0]
    · have hmem : k ∈ dictKeys tl := by
        simp [dictKeys] at h
        rcases h with h | h
        · exact absurd h.symm h0
        · simpa [dictKeys] using h
      simp [dictSet, dictKeys, h0]
      simpa [dictKeys] using ih hmem

lemma dictKeys_dictSet_not_mem (st : Store) (k : String) (v : HealthRecord)
    (h : ¬ k ∈ dictKeys st) : dictKeys (dictSet st k v) = dictKeys st ++ [k] := by
  induction st with
  | nil => simp [dictSet, dictKeys]
  | cons hd tl ih =>
    obtain ⟨k0, v0⟩ := hd
    have h0 : ¬ k0 = k := by
      intro hh
      exact h (by simp [dictKeys, hh])
    have htl : ¬ k ∈ dictKeys tl := by
      intro hh
      exact h (by simp [dictKeys]; right; simpa [dictKeys] using hh)
    simp [dictSet, dictKeys, h0]
    simpa [dictKeys] using ih htl

lemma dictKeys_dictSet_nodup (st : Store) (k : String) (v : HealthRecord)
    (h : (dictKeys st).Nodup) : (dictKeys (dictSet st k v)).Nodup := by
  by_cases hmem : k ∈ dictKeys st
  · rw [dictKeys_dictSet_mem st k v hmem]
    exact h
  · rw [dictKeys_dictSet_not_mem st k v hmem]
    simpa [List.nodup_append] using ⟨h, hmem⟩

/-!
Dictionary lemmas and the remaining claims.
-/
lemma mem_dictKeys_dictSet (st : Store) (k : String) (v : HealthRecord) :
    k ∈ dictKeys (dictSet st k v) := by
  induction st with
  | nil => simp [dictSet, dictKeys]
  | cons hd tl ih =>
    obtain ⟨k0, v0⟩ := hd
    by_cases h0 : k0 = k
    · simp [dictSet, dictKeys, h0]
    · simp only [dictSet, if_neg h0, dictKeys, List.map_cons, List.mem_cons]
      right
      simpa [dictKeys] using ih

lemma mem_dictKeys_dictSet_of_mem (st : Store) (k k' : String)
    (v : HealthRecord) (h : k ∈ dictKeys st) :
    k ∈ dictKeys (dictSet st k' v) := by
  by_cases hm : k' ∈ dictKeys st
  · rwa [dictKeys_dictSet_mem st k' v hm]
  · rw [dictKeys_dictSet_not_mem st k' v hm]
    exact List.mem_append_left _ h

lemma runBatch_preserves_key (env : NetEnv) (now timeout : Nat) (k : String) :
    ∀ (batch : List Node) (st : Store), k ∈ dictKeys st →
      k ∈ dictKeys (runBatch env now timeout batch st) := by
  intro batch
  induction batch with
  | nil => intro st h; exact h
  | cons n rest ih =>
    intro st h
    have h1 : k ∈ dictKeys (check_single_node env now timeout n st) := by
      rw [check_single_node_eq_dictSet]
      exact mem_dictKeys_dictSet_of_mem _ _ _ _ h
    exact ih (check_single_node env now timeout n st) h1

lemma runBatch_writes (env : NetEnv) (now timeout : Nat) :
    ∀ (batch : List Node) (st : Store) (m : Node), m ∈ batch →
      nodeName m ∈ dictKeys (runBatch env now timeout batch st) := by
  intro batch
  induction batch with
  | nil => intro st m h; simp at h
  | cons n rest ih =>
    intro st m h
    rcases List.mem_cons.mp h with h | h
    · subst h
      have h1 : nodeName m ∈ dictKeys (check_single_node env now timeout m st) := by
        rw [check_single_node_eq_dictSet]
        exact mem_dictKeys_dictSet _ _ _
      exact runBatch_preserves_key env now timeout (nodeName m) rest
        (check_single_node env now timeout m st) h1
    · exact ih (check_single_node env now timeout n st) m h

/-- Claim C8: writing a `HealthRecord` for a node name is a whole-record
overwrite with last-writer-wins semantics — writing twice for the same
node name leaves only the most recent record retrievable, other keys are
untouched, and no duplicate key accumulates; `get_health_data()` returns
a snapshot of the store, reading mutates nothing, and in this pure model
a snapshot is a value that later writes cannot alter. -/
theorem claim_C8 (s : MonState) (st : Store) (k k' : String)
    (v v1 v2 : HealthRecord) :
    dictGet (dictSet st k v) k = some v ∧
    dictGet (dictSet (dictSet st k v1) k v2) k = some v2 ∧
    (k' ≠ k → dictGet (dictSet st k v) k' = dictGet st k') ∧
    dictKeys (dictSet (dictSet st k v1) k v2) = dictKeys (dictSet st k v1) ∧
    ((dictKeys st).Nodup → (dictKeys (dictSet st k v)).Nodup) ∧
    get_health_data s = s.health_data ∧
    dictGet (get_health_data s) k = dictGet s.health_data k ∧
    get_health_data { s with health_data := dictSet s.health_data k v }
      = dictSet s.health_data k v := by
  refine ⟨dictGet_dictSet_self st k v,
    dictGet_dictSet_self _ k v2,
    fun h => dictGet_dictSet_other st k k' v h,
    dictKeys_dictSet_mem _ k v2 (mem_dictKeys_dictSet st k v1),
    dictKeys_dictSet_nodup st k v,
    rfl, rfl, rfl⟩

theorem claim_C8_witness :
    dictGet (dictSet (dictSet [] "R1" recW1) "R1" recW2) "R1" = some recW2 ∧
    dictGet (dictSet [] "R1" recW1) "B2" = dictGet ([] : Store) "B2" := by
  exact ⟨(claim_C8 monitorInit [] "R1" "B2" recW1 recW1 recW2).2.1,
    (claim_C8 monitorInit [] "R1" "B2" recW1 recW1 recW2).2.2.1 (by decide)⟩

lemma nodeRecord_ip (env : NetEnv) (now timeout : Nat) (n : Node) :
    (nodeRecord env now timeout n).ip = nodeIp n := by
  unfold nodeRecord
  cases check_connectivity (env (nodeIp n)) (nodeType n) timeout with
  | ok r => cases r; rfl
  | error e => rfl

/-- Claim C10: missing node fields are defaulted rather than rejected: a
node object without a `name` key is recorded under the key `"Unknown"`
(so two nameless nodes in one config collapse into a single record, the
last one winning), a missing `ip` defaults to the empty string (also in
the written record), and a missing `type` defaults to `"unknown"`, so
both ports 22 and 23 are probed. -/
theorem claim_C10 (env : NetEnv) (now timeout : Nat) (n n1 n2 : Node) :
    (n.name = none → nodeName n = "Unknown") ∧
    (n.ip = none → nodeIp n = "" ∧ (nodeRecord env now timeout n).ip = "") ∧
    (n.type = none → nodeType n = "unknown" ∧
      test_ports (nodeType n) = [22, 23]) ∧
    (n1.name = none → n2.name = none →
      dictGet (check_single_node env now timeout n2
          (check_single_node env now timeout n1 [])) "Unknown"
        = some (nodeRecord env now timeout n2) ∧
      dictKeys (check_single_node env now timeout n2
          (check_single_node env now timeout n1 [])) = ["Unknown"]) := by
  refine ⟨?_, ?_, ?_, ?_⟩
  · intro h; simp [nodeName, h]
  · intro h
    refine ⟨by simp [nodeIp, h], ?_⟩
    rw [nodeRecord_ip]
    simp [nodeIp, h]
  · intro h
    have ht : nodeType n = "unknown" := by
      simp only [nodeType, h, Option.getD]
      rfl
    exact ⟨ht, by rw [ht]; rfl⟩
  · intro h1 h2
    have e1 : nodeName n1 = "Unknown" := by simp [nodeName, h1]
    have e2 : nodeName n2 = "Unknown" := by simp [nodeName, h2]
    rw [check_single_node_eq_dictSet, check_single_node_eq_dictSet, e1, e2]
    refine ⟨dictGet_dictSet_self _ _ _, ?_⟩
    simp [dictSet, dictKeys]

theorem claim_C10_witness :
    nodeName nodeC10 = "Unknown" ∧
    nodeType nodeC10 = "unknown" ∧
    dictKeys (check_single_node envC10 0 2 nodeC10
      (check_single_node envC10 0 2 nodeC10 [])) = ["Unknown"] := by
  refine ⟨(claim_C10 envC10 0 2 nodeC10 nodeC10 nodeC10).1 rfl,
    ((claim_C10 envC10 0 2 nodeC10 nodeC10 nodeC10).2.2.1 rfl).1,
    ((claim_C10 envC10 0 2 nodeC10 nodeC10 nodeC10).2.2.2 rfl rfl).2⟩

/-- Counterexample to claim C4: at a node whose DNS resolution fails on
every candidate port (a probe-level unexpected exception), the written
record has `status = "Unhealthy"` — not `"Error"` as the claim states —
because `_check_connectivity` swallows the exception itself (bare
`except: continue`, then the outer `except Exception` on the resulting
`UnboundLocalError`) and returns a normal failure, so the
`except Exception` branch of `_check_single_node` that would write
`"Error"` never runs for probe-level exceptions. -/
theorem claim_C4_counterexample :
    dictGet (check_single_node envC4 1000 2 nodeC4 []) "R1"
      = some { ip := "badhost.invalid", type := "ssh", status := "Unhealthy"
               response_time := 5, last_check := 1000
               recommendation := "SSH connection failed - verify SSH service running" } ∧
    (dictGet (check_single_node envC4 1000 2 nodeC4 []) "R1").map
        HealthRecord.status ≠ some "Error" := by
  constructor
  · rfl
  · decide

/-- Claim C4 (amended): for every node whose probe encounters an
unexpected exception on every candidate port (for example a DNS
resolution error or socket creation failure), the exception is caught —
inside the probe itself — and the HealthRecord of the node is written with
`status = Unhealthy` and the elapsed milliseconds (not `status = Error`:
the per-node `Error` path is unreachable from probe exceptions because
the probe never raises), and the batch is not aborted: the remaining
nodes of the batch are still processed and every node of the batch ends
up with a record in the store. -/
theorem claim_C4_amended (env : NetEnv) (now timeout : Nat) (node : Node)
    (st : Store) (rest : List Node)
    (h : ∀ p ∈ test_ports (nodeType node),
      ∃ d, env (nodeIp node) p = AttemptOutcome.exn d) :
    check_single_node env now timeout node st
      = dictSet st (nodeName node)
          { ip := nodeIp node, type := nodeType node, status := "Unhealthy"
            response_time := sumDur (env (nodeIp node)) (test_ports (nodeType node))
            last_check := now
            recommendation := get_recommendation false
              (sumDur (env (nodeIp node)) (test_ports (nodeType node)))
              (nodeType node) } ∧
    dictGet (check_single_node env now timeout node st) (nodeName node)
      = some { ip := nodeIp node, type := nodeType node, status := "Unhealthy"
               response_time := sumDur (env (nodeIp node)) (test_ports (nodeType node))
               last_check := now
               recommendation := get_recommendation false
                 (sumDur (env (nodeIp node)) (test_ports (nodeType node)))
                 (nodeType node) } ∧
    runBatch env now timeout (node :: rest) st
      = runBatch env now timeout rest (check_single_node env now timeout node st) ∧
    (∀ m ∈ node :: rest,
      nodeName m ∈ dictKeys (runBatch env now timeout (node :: rest) st)) := by
  have hres : check_connectivity (env (nodeIp node)) (nodeType node) timeout
      = Except.ok (false, sumDur (env (nodeIp node)) (test_ports (nodeType node))) :=
    check_connectivity_all_exn (env (nodeIp node)) (nodeType node) timeout h
  have hmain : check_single_node env now timeout node st
      = dictSet st (nodeName node)
          { ip := nodeIp node, type := nodeType node, status := "Unhealthy"
            response_time := sumDur (env (nodeIp node)) (test_ports (nodeType node))
            last_check := now
            recommendation := get_recommendation false
              (sumDur (env (nodeIp node)) (test_ports (nodeType node)))
              (nodeType node) } := by
    simp [check_single_node, hres]
  refine ⟨hmain, ?_, rfl, runBatch_writes env now timeout (node :: rest) st⟩
  rw [hmain]
  exact dictGet_dictSet_self _ _ _

theorem claim_C4_amended_witness :
    dictGet (check_single_node envC4 1000 2 nodeC4 []) "R1"
      = some { ip := "badhost.invalid", type := "ssh", status := "Unhealthy"
               response_time := 5, last_check := 1000
               recommendation := "SSH connection failed - verify SSH service running" } := by
  have h := (claim_C4_amended envC4 1000 2 nodeC4 [] []
    (by intro p hp; exact ⟨5, rfl⟩)).2.1
  exact h

/-- Counterexample to claim C5: at a node whose only candidate port
refuses the connection within the same millisecond, the written record
has `response_time = 0`, not `> 0`: the failure path of
`_check_connectivity` computes `int((time.time() - start_time) * 1000)`
without the `max(..., 1)` clamp that the success path applies. -/
theorem claim_C5_counterexample :
    dictGet (check_single_node envC5 0 2 nodeC5 []) "R1"
      = some { ip := "127.0.0.1", type := "ssh", status := "Unhealthy"
               response_time := 0, last_check := 0
               recommendation := "SSH connection failed - verify SSH service running" } := by
  rfl

/-- Claim C5 (amended): for every node whose probe fails at the
connection level (`connect_ex` on every candidate port returns a nonzero
error code: refused, timed out or unreachable), the HealthRecord of the
node is written with `status = Unhealthy` and `response_time` equal to the
elapsed milliseconds of the whole probe — which is at least 0 but can be
0 when the failure completes within the same millisecond, since the
failure path has no minimum clamp — and no exception is raised to the
caller. -/
theorem claim_C5_amended (env : NetEnv) (now timeout : Nat) (node : Node)
    (st : Store)
    (h : ∀ p ∈ test_ports (nodeType node),
      ∃ c d, env (nodeIp node) p = AttemptOutcome.ret c d ∧ c ≠ 0) :
    check_single_node env now timeout node st
      = dictSet st (nodeName node)
          { ip := nodeIp node, type := nodeType node, status := "Unhealthy"
            response_time := sumDur (env (nodeIp node)) (test_ports (nodeType node))
            last_check := now
            recommendation := get_recommendation false
              (sumDur (env (nodeIp node)) (test_ports (nodeType node)))
              (nodeType node) } ∧
    dictGet (check_single_node env now timeout node st) (nodeName node)
      = some { ip := nodeIp node, type := nodeType node, status := "Unhealthy"
               response_time := sumDur (env (nodeIp node)) (test_ports (nodeType node))
               last_check := now
               recommendation := get_recommendation false
                 (sumDur (env (nodeIp node)) (test_ports (nodeType node)))
                 (nodeType node) } ∧
    (∃ res, check_connectivity (env (nodeIp node)) (nodeType node) timeout
      = Except.ok res) := by
  have hres : check_connectivity (env (nodeIp node)) (nodeType node) timeout
      = Except.ok (false, sumDur (env (nodeIp node)) (test_ports (nodeType node))) :=
    check_connectivity_all_refused (env (nodeIp node)) (nodeType node) timeout h
  have hmain : check_single_node env now timeout node st
      = dictSet st (nodeName node)
          { ip := nodeIp node, type := nodeType node, status := "Unhealthy"
            response_time := sumDur (env (nodeIp node)) (test_ports (nodeType node))
            last_check := now
            recommendation := get_recommendation false
              (sumDur (env (nodeIp node)) (test_ports (nodeType node)))
              (nodeType node) } := by
    simp [check_single_node, hres]
  refine ⟨hmain, ?_, ⟨_, hres⟩⟩
  rw [hmain]
  exact dictGet_dictSet_self _ _ _

theorem claim_C5_amended_witness :
    dictGet (check_single_node envC5 0 2 nodeC5 []) "R1"
      = some { ip := "127.0.0.1", type := "ssh", status := "Unhealthy"
               response_time := 0, last_check := 0
               recommendation := "SSH connection failed - verify SSH service running" } := by
  have h := (claim_C5_amended envC5 0 2 nodeC5 []
    (by intro p hp; exact ⟨111, 0, rfl, by decide⟩)).2.1
  exact h

/-!
Batch structure of one cycle (claim C3).
-/
lemma range'_shift (step t : Nat) :
    ∀ (k s : Nat), List.range' (s + t) k step
      = (List.range' s k step).map (· + t) := by
  intro k
  induction k with
  | zero => intro s; rfl
  | succ k ih =>
    intro s
    rw [List.range'_succ, List.range'_succ, List.map_cons]
    have hc : s + t + step = s + step + t := by omega
    rw [hc, ih (s + step)]

lemma specChunks_eq_nil_iff {α : Type} (mc : Nat) (ns : List α) :
    specChunks mc ns = [] ↔ ns = [] := by
  cases ns with
  | nil => simp [specChunks]
  | cons x xs => simp [specChunks]

lemma sliceBatches_eq_specChunks {α : Type} (mc : Nat) (hmc : 1 ≤ mc) :
    ∀ (ns : List α), sliceBatches ns mc = specChunks mc ns
  | [] => by
    have h0 : (mc - 1) / mc = 0 := Nat.div_eq_of_lt (by omega)
    simp [sliceBatches, pyRange, specChunks, h0]
  | x :: xs => by
    obtain ⟨m, rfl⟩ : ∃ m, mc = m + 1 := ⟨mc - 1, by omega⟩
    have ih := sliceBatches_eq_specChunks (m + 1) hmc (xs.drop m)
    have hcount : ((x :: xs).length - 0 + (m + 1) - 1) / (m + 1)
        = xs.length / (m + 1) + 1 := by
      have h1 : (x :: xs).length - 0 + (m + 1) - 1 = xs.length + (m + 1) := by
        simp only [List.length_cons, Nat.sub_zero]
        omega
      rw [h1, Nat.add_div_right _ (by omega : 0 < m + 1)]
    have hcount2 : ((xs.drop m).length - 0 + (m + 1) - 1) / (m + 1)
        = xs.length / (m + 1) := by
      by_cases hlen : m ≤ xs.length
      · have h1 : (xs.drop m).length - 0 + (m + 1) - 1 = xs.length := by
          simp only [List.length_drop, Nat.sub_zero]
          omega
        rw [h1]
      · have h1 : (xs.drop m).length - 0 + (m + 1) - 1 = m := by
          simp only [List.length_drop, Nat.sub_zero]
          omega
        rw [h1, Nat.div_eq_of_lt (by omega), Nat.div_eq_of_lt (by omega)]
    have hmap : ∀ i : Nat, ((x :: xs).drop (i + (m + 1))).take (m + 1)
        = ((xs.drop m).drop i).take (m + 1) := by
      intro i
      have : (x :: xs).drop (i + (m + 1)) = (xs.drop m).drop i := by
        rw [List.drop_drop]
        have h2 : i + (m + 1) = (m + i) + 1 := by omega
        rw [h2, List.drop_succ_cons]
      rw [this]
    calc sliceBatches (x :: xs) (m + 1)
        = (List.range' 0 (xs.length / (m + 1) + 1) (m + 1)).map
            (fun i => ((x :: xs).drop i).take (m + 1)) := by
          rw [sliceBatches, pyRange, hcount]
    _ = ((x :: xs).take (m + 1))
          :: (List.range' (m + 1) (xs.length / (m + 1)) (m + 1)).map
              (fun i => ((x :: xs).drop i).take (m + 1)) := by
          rw [List.range'_succ, List.map_cons, Nat.zero_add, List.drop_zero]
    _ = (x :: xs.take m)
          :: ((List.range' 0 (xs.length / (m + 1)) (m + 1)).map (· + (m + 1))).map
              (fun i => ((x :: xs).drop i).take (m + 1)) := by
          rw [List.take_succ_cons]
          have hs : List.range' (m + 1) (xs.length / (m + 1)) (m + 1)
              = (List.range' 0 (xs.length / (m + 1)) (m + 1)).map (· + (m + 1)) := by
            have h := range'_shift (m + 1) (m + 1) (xs.length / (m + 1)) 0
            rwa [Nat.zero_add] at h
          rw [hs]
    _ = (x :: xs.take m)
          :: (List.range' 0 (xs.length / (m + 1)) (m + 1)).map
              (fun i => ((xs.drop m).drop i).take (m + 1)) := by
          rw [List.map_map]
          congr 1
          exact List.map_congr_left (fun i _ => hmap i)
    _ = (x :: xs.take m) :: sliceBatches (xs.drop m) (m + 1) := by
          rw [sliceBatches, pyRange, hcount2]
    _ = specChunks (m + 1) (x :: xs) := by
          rw [ih]
          simp [specChunks]
termination_by ns => ns.length
decreasing_by simp [List.length_drop]; omega

lemma specChunks_flatten {α : Type} (mc : Nat) (hmc : 1 ≤ mc) :
    ∀ (ns : List α), (specChunks mc ns).flatten = ns
  | [] => by simp [specChunks]
  | x :: xs => by
    have ih := specChunks_flatten mc hmc (xs.drop (mc - 1))
    simp [specChunks, ih, List.take_append_drop]
termination_by ns => ns.length
decreasing_by simp [List.length_drop]; omega

lemma specChunks_mem {α : Type} (mc : Nat) (hmc : 1 ≤ mc) :
    ∀ (ns : List α), ∀ b ∈ specChunks mc ns, b.length ≤ mc ∧ b ≠ []
  | [] => by simp [specChunks]
  | x :: xs => by
    intro b hb
    rw [show specChunks mc (x :: xs)
        = (x :: xs.take (mc - 1)) :: specChunks mc (xs.drop (mc - 1)) by
      simp [specChunks]] at hb
    rcases List.mem_cons.mp hb with h | h
    · subst h
      constructor
      · have := List.length_take (mc - 1) xs
        simp only [List.length_cons, this]
        omega
      · simp
    · exact specChunks_mem mc hmc (xs.drop (mc - 1)) b h
termination_by ns => ns.length
decreasing_by simp [List.length_drop]; omega

lemma specChunks_dropLast {α : Type} (mc : Nat) (hmc : 1 ≤ mc) :
    ∀ (ns : List α), ∀ b ∈ (specChunks mc ns).dropLast, b.length = mc
  | [] => by simp [specChunks]
  | x :: xs => by
    intro b hb
    rw [show specChunks mc (x :: xs)
        = (x :: xs.take (mc - 1)) :: specChunks mc (xs.drop (mc - 1)) by
      simp [specChunks]] at hb
    by_cases hrest : specChunks mc (xs.drop (mc - 1)) = []
    · rw [hrest] at hb
      simp at hb
    · have hlong : mc - 1 ≤ xs.length := by
        by_contra hshort
        have hnil : xs.drop (mc - 1) = [] :=
          List.drop_eq_nil_of_le (by omega)
        rw [hnil] at hrest
        exact hrest (by simp [specChunks])
      rw [List.dropLast_cons_of_ne_nil hrest] at hb
      rcases List.mem_cons.mp hb with h | h
      · subst h
        have := List.length_take (mc - 1) xs
        simp only [List.length_cons, this]
        omega
      · exact specChunks_dropLast mc hmc (xs.drop (mc - 1)) b h
termination_by ns => ns.length
decreasing_by simp [List.length_drop]; omega

/-- Claim C3: for every node list and every `max_concurrent ≥ 1`, a
check cycle splits the list into consecutive batches of size
`max_concurrent` (the last batch may be smaller) and processes the
batches strictly in list order — the trace of the loop is the
concatenation, batch by batch in order, of per-batch traces, each batch
joining its workers with timeout `timeout + 1` and pausing briefly
after the batch; for `max_concurrent = 3` and 7 nodes exactly 3 batches
of sizes 3, 3, 1 are formed, in that order. -/
theorem claim_C3 (mc timeout : Nat) (ns : List Node) (hmc : 1 ≤ mc) :
    sliceBatches ns mc = specChunks mc ns ∧
    (sliceBatches ns mc).flatten = ns ∧
    (∀ b ∈ sliceBatches ns mc, b.length ≤ mc ∧ b ≠ []) ∧
    (∀ b ∈ (sliceBatches ns mc).dropLast, b.length = mc) ∧
    (mc = 3 → ns.length = 7 → (sliceBatches ns mc).map List.length = [3, 3, 1]) ∧
    cycleTrace ns mc timeout
      = ((sliceBatches ns mc).map (batchTrace timeout)).flatten := by
  have heq := sliceBatches_eq_specChunks mc hmc ns
  refine ⟨heq, ?_, ?_, ?_, ?_, ?_⟩
  · rw [heq]; exact specChunks_flatten mc hmc ns
  · rw [heq]; exact specChunks_mem mc hmc ns
  · rw [heq]; exact specChunks_dropLast mc hmc ns
  · intro hmc3 hlen
    subst hmc3
    have hr : pyRange 0 7 3 = [0, 3, 6] := rfl
    unfold sliceBatches
    rw [hlen, hr]
    simp only [List.map_cons, List.map_nil, List.length_take,
      List.length_drop, hlen]
    decide
  · simp only [cycleTrace, sliceBatches, List.map_map]
    rfl

theorem claim_C3_witness :
    (sliceBatches nsC3 3).map List.length = [3, 3, 1] := by
  exact (claim_C3 3 2 nsC3 (by omega)).2.2.2.2.1 rfl rfl

/-!
Scheduler guard (claim C1) and cycle-level error handling (claims C6
and C7).
-/
lemma atomicStep_inv (e : AtomicEvent) (s : RaceState)
    (h1 : s.passed = 0)
    (h2 : s.activeCycles = if s.check_in_progress then 1 else 0) :
    (atomicStep e s).passed = 0 ∧
    (atomicStep e s).activeCycles
      = if (atomicStep e s).check_in_progress then 1 else 0 := by
  cases e with
  | forceCheck =>
    by_cases hc : s.check_in_progress
    · have hstate : atomicStep AtomicEvent.forceCheck s = s := by
        simp [atomicStep, force_check, hc]
      rw [hstate]
      exact ⟨h1, h2⟩
    · have hstate : atomicStep AtomicEvent.forceCheck s
          = { s with pending := s.pending + 1 } := by
        simp [atomicStep, force_check, hc]
      rw [hstate]
      exact ⟨h1, h2⟩
  | tick =>
    by_cases hc : s.check_in_progress
    · have hstate : atomicStep AtomicEvent.tick s = s := by
        simp [atomicStep, raceStep, hc]
      rw [hstate]
      exact ⟨h1, h2⟩
    · have hstate : atomicStep AtomicEvent.tick s
          = { s with pending := s.pending + 1 } := by
        simp [atomicStep, raceStep, hc]
      rw [hstate]
      exact ⟨h1, h2⟩
  | guard =>
    by_cases hp : s.pending = 0
    · have hstate : atomicStep AtomicEvent.guard s = s := by
        simp [atomicStep, guardAtomic, hp]
      rw [hstate]
      exact ⟨h1, h2⟩
    · by_cases hc : s.check_in_progress
      · have hstate : atomicStep AtomicEvent.guard s
            = { s with pending := s.pending - 1 } := by
          simp [atomicStep, guardAtomic, hp, hc]
        rw [hstate]
        exact ⟨h1, h2⟩
      · have ha : s.activeCycles = 0 := by simpa [hc] using h2
        have hstate : atomicStep AtomicEvent.guard s
            = { s with pending := s.pending - 1, check_in_progress := true,
                       activeCycles := s.activeCycles + 1 } := by
          simp [atomicStep, guardAtomic, hp, hc]
        rw [hstate]
        exact ⟨h1, by simp [ha]⟩
  | finishCycle =>
    by_cases ha : s.activeCycles = 0
    · have hstate : atomicStep AtomicEvent.finishCycle s = s := by
        simp [atomicStep, raceStep, ha]
      rw [hstate]
      exact ⟨h1, h2⟩
    · have hc : s.check_in_progress = true := by
        by_contra hcc
        simp only [Bool.not_eq_true] at hcc
        rw [hcc] at h2
        simp at h2
        exact ha h2
      have hstate : atomicStep AtomicEvent.finishCycle s
          = { s with check_in_progress := false,
                     activeCycles := s.activeCycles - 1 } := by
        simp [atomicStep, raceStep, ha]
      rw [hstate]
      have h3 : s.activeCycles = 1 := by simp [h2, hc]
      exact ⟨h1, by simp [h3]⟩

lemma foldl_atomic_inv :
    ∀ (evs : List AtomicEvent) (s : RaceState),
      s.passed = 0 →
      s.activeCycles = (if s.check_in_progress then 1 else 0) →
      (evs.foldl (fun s e => atomicStep e s) s).activeCycles
        = if (evs.foldl (fun s e => atomicStep e s) s).check_in_progress
          then 1 else 0 := by
  intro evs
  induction evs with
  | nil => intro s _ h2; exact h2
  | cons e rest ih =>
    intro s h1 h2
    obtain ⟨g1, g2⟩ := atomicStep_inv e s h1 h2
    exact ih (atomicStep e s) g1 g2

/-- Counterexample to claim C1: the check-then-set guard of the code is
not atomic, so a state with two check cycles in progress at the same
time is reachable.  Concrete interleaving: two `force_check()` calls
both read the flag clear at line 1768 (each returns `True` and spawns a
checker thread); both spawned threads then execute the test
`if self.check_in_progress: return` of line 1647 before either reaches
the assignment `self.check_in_progress = True` of line 1650; both
therefore pass the guard, both set the flag, and two check cycles run
concurrently.  This is exactly the TOCTOU window the specification
documents in its concurrency model and design notes. -/
theorem claim_C1_counterexample :
    (raceRun [RaceEvent.forceCheck, RaceEvent.forceCheck,
      RaceEvent.guardTest, RaceEvent.guardTest,
      RaceEvent.guardSet, RaceEvent.guardSet]).activeCycles = 2 := by
  rfl

/-- Claim C1 (amended): calling `force_check()` while the in-progress
flag is set returns `False` and spawns nothing; calling it while the
flag is clear returns `True` and spawns a checker thread; a scheduled
tick that observes the flag set is a no-op; a spawned checker that
observes the flag set at its own guard test returns without starting a
cycle, and `_check_connections_safely` likewise returns immediately when
the flag is set.  Kept contiguous, a guard execution (the test of line
1647 followed at once by the set of line 1650, with no other thread
mid-window) behaves as an atomic test-and-set, and along every execution
whose guard windows are all contiguous the number of check cycles in
progress never exceeds 1.  Only an interleaving inside the check-then-set
window — the TOCTOU race the specification documents — can start a
second concurrent cycle. -/
theorem claim_C1_amended (inp : CycleInput) :
    (∀ s : RaceState, s.check_in_progress = true →
      (force_check s).1 = false ∧ (force_check s).2 = s) ∧
    (∀ s : RaceState, s.check_in_progress = false →
      (force_check s).1 = true ∧
      (force_check s).2 = { s with pending := s.pending + 1 }) ∧
    (∀ s : RaceState, s.check_in_progress = true →
      raceStep RaceEvent.tick s = s) ∧
    (∀ s : RaceState, s.check_in_progress = true → 0 < s.pending →
      raceStep RaceEvent.guardTest s = { s with pending := s.pending - 1 }) ∧
    (∀ s : MonState, s.check_in_progress = true →
      check_connections_safely inp s = s) ∧
    (∀ s : RaceState, s.passed = 0 →
      guardAtomic s
        = raceStep RaceEvent.guardSet (raceStep RaceEvent.guardTest s)) ∧
    (∀ evs : List AtomicEvent, (atomicRun evs).activeCycles ≤ 1) := by
  refine ⟨?_, ?_, ?_, ?_, ?_, ?_, ?_⟩
  · intro s h
    simp [force_check, h]
  · intro s h
    simp [force_check, h]
  · intro s h
    simp [raceStep, h]
  · intro s h hp
    have hp0 : ¬ s.pending = 0 := by omega
    simp [raceStep, h, hp0]
  · intro s h
    simp [check_connections_safely, h]
  · intro s h
    by_cases hp : s.pending = 0
    · simp [guardAtomic, raceStep, hp, h]
    · by_cases hc : s.check_in_progress
      · simp [guardAtomic, raceStep, hp, hc, h]
      · simp [guardAtomic, raceStep, hp, hc, h]
  · intro evs
    have hinv := foldl_atomic_inv evs raceInit rfl rfl
    rw [show atomicRun evs = evs.foldl (fun s e => atomicStep e s) raceInit
      from rfl]
    rw [hinv]
    split <;> omega

theorem claim_C1_amended_witness :
    (force_check { check_in_progress := true, pending := 0, passed := 0,
                   activeCycles := 1 }).1 = false ∧
    (force_check { check_in_progress := false, pending := 0, passed := 0,
                   activeCycles := 0 }).1 = true ∧
    (atomicRun [AtomicEvent.forceCheck, AtomicEvent.guard,
      AtomicEvent.forceCheck, AtomicEvent.tick]).activeCycles ≤ 1 := by
  exact ⟨((claim_C1_amended inpMissing).1 _ rfl).1,
    ((claim_C1_amended inpMissing).2.1 _ rfl).1,
    (claim_C1_amended inpMissing).2.2.2.2.2.2 _⟩

lemma runBatches_some (env : NetEnv) (now timeout : Nat) :
    ∀ (bs : List (List Node)) (k : Nat) (st : Store),
      runBatches env now timeout (some k) bs st
        = if k < bs.length
          then ((bs.take k).foldl (fun st b => runBatch env now timeout b st) st, true)
          else (bs.foldl (fun st b => runBatch env now timeout b st) st, false) := by
  intro bs
  induction bs with
  | nil => intro k st; simp [runBatches]
  | cons b rest ih =>
    intro k st
    cases k with
    | zero => simp [runBatches]
    | succ k' =>
      have hstep : runBatches env now timeout (some (k' + 1)) (b :: rest) st
          = runBatches env now timeout (some k') rest (runBatch env now timeout b st) := by
        simp [runBatches]
      rw [hstep, ih k' (runBatch env now timeout b st)]
      by_cases hk : k' < rest.length
      · rw [if_pos hk, if_pos (by simpa using Nat.succ_lt_succ hk)]
        simp [List.take_succ_cons]
      · rw [if_neg hk, if_neg (by simp; omega)]
        simp

/-- Claim C6: for every check cycle in which an unhandled exception
occurs — `json.load` raising on malformed config, or a cycle-level
exception in the middle of the batch loop — the exception is caught (the
function still returns a defined state), the in-progress flag ends up
reset so the state returns to idle, the per-node records written before
the failure remain in the store (the final store is exactly the fold of
the batches completed before the failure point, over the pre-cycle
store), and the scheduler loop continues: the next `_monitor_loop`
iteration finds the flag clear and runs a fresh cycle. -/
theorem claim_C6 (inp inp2 : CycleInput) (s : MonState)
    (hidle : s.check_in_progress = false)
    (hraised : (cycleBody inp s.health_data).2 = true) :
    (check_connections_safely inp s).check_in_progress = false ∧
    (check_connections_safely inp s).health_data
      = (cycleBody inp s.health_data).1 ∧
    (∀ nodes k, inp.cfg = ConfigSrc.ok nodes → inp.failBatch = some k →
      (cycleBody inp s.health_data).1
        = ((sliceBatches nodes inp.mc).take k).foldl
            (fun st b => runBatch inp.env inp.now inp.timeout b st)
            s.health_data) ∧
    monitor_iter inp2 (check_connections_safely inp s)
      = check_connections_safely inp2 (check_connections_safely inp s) := by
  refine ⟨by simp [check_connections_safely, hidle],
    by simp [check_connections_safely, hidle], ?_, ?_⟩
  · intro nodes k hcfg hfail
    have hbody : cycleBody inp s.health_data
        = if nodes.isEmpty then (s.health_data, false)
          else runBatches inp.env inp.now inp.timeout inp.failBatch
            (sliceBatches nodes inp.mc) s.health_data := by
      simp [cycleBody, hcfg]
    by_cases hemp : nodes.isEmpty
    · rw [hbody, if_pos hemp] at hraised
      simp at hraised
    · rw [hbody, if_neg hemp] at hraised ⊢
      rw [hfail] at hraised ⊢
      rw [runBatches_some inp.env inp.now inp.timeout
        (sliceBatches nodes inp.mc) k s.health_data] at hraised ⊢
      by_cases hk : k < (sliceBatches nodes inp.mc).length
      · rw [if_pos hk]
      · rw [if_neg hk] at hraised
        simp at hraised
  · have hflag : (check_connections_safely inp s).check_in_progress = false := by
      simp [check_connections_safely, hidle]
    simp [monitor_iter, hflag]

theorem claim_C6_witness :
    (check_connections_safely inpParseError monitorInit).check_in_progress
      = false ∧
    (check_connections_safely inpParseError monitorInit).health_data = [] := by
  refine ⟨(claim_C6 inpParseError inpMissing monitorInit rfl rfl).1, ?_⟩
  exact (claim_C6 inpParseError inpMissing monitorInit rfl rfl).2.1

/-- Claim C7: for every check cycle in which the config file is absent
or the nodes list is absent or empty, the cycle completes as a no-op:
the `try` block returns without raising, the flag ends clear, the health
data store is unchanged, and `get_health_data()` afterwards returns
exactly what it returned before — the empty mapping when nothing was
ever written, as from the initial state. -/
theorem claim_C7 (inp : CycleInput) (s : MonState)
    (hidle : s.check_in_progress = false)
    (hcfg : inp.cfg = ConfigSrc.missing ∨ inp.cfg = ConfigSrc.ok []) :
    check_connections_safely inp s
      = { check_in_progress := false, health_data := s.health_data } ∧
    (cycleBody inp s.health_data).2 = false ∧
    get_health_data (check_connections_safely inp s) = get_health_data s ∧
    get_health_data monitorInit = [] := by
  have hbody : cycleBody inp s.health_data = (s.health_data, false) := by
    rcases hcfg with h | h <;> simp [cycleBody, h]
  refine ⟨?_, by rw [hbody], ?_, rfl⟩
  · simp [check_connections_safely, hidle, hbody]
  · simp [get_health_data, check_connections_safely, hidle, hbody]

theorem claim_C7_witness :
    check_connections_safely inpMissing monitorInit
      = { check_in_progress := false, health_data := [] } ∧
    get_health_data (check_connections_safely inpEmpty monitorInit) = [] := by
  refine ⟨(claim_C7 inpMissing monitorInit rfl (Or.inl rfl)).1, ?_⟩
  exact (claim_C7 inpEmpty monitorInit rfl (Or.inr rfl)).2.2.1

end Launcher

